import Mathlib

/-!
Shallow embedding of the deploy core of the shushpie repository: the
`ssh`/`testSSH` remote executor (`src/utils.ts`), the `Service` unit
operations (`src/deploy/service.ts`), the `ServiceReleases` release store
(`src/deploy/releases.ts`) and the `Deploy` registry (`src/deploy/deploy.ts`).

The remote shell scripts embedded in the source are modelled by explicit
functions over a description of the remote releases directory (`RelEntry`):
each directory entry with its name, whether it is a directory, its canonical
(`readlink -f`) path and its modification time.  Remote command transport is
modelled by an `ExecOutcome` describing how one `execa('ssh', ...)` promise
settles.
-/

/-- Structured stream output of one remote command (`SSHResult` in
`src/utils.ts`). -/
structure SSHResult where
  stdout : String
  stderr : String
  deriving Repr, DecidableEq

/-- Shape of a `testSSH` return value: the captured streams plus the computed
`success` flag (`Object.assign(result, { success })` in `src/utils.ts`). -/
structure TestResult where
  stdout : String
  stderr : String
  success : Bool
  deriving Repr, DecidableEq

/-- How one `execa('ssh', ...)` promise settles, as observed by the calling
process: it resolves with captured streams; it rejects with an error object
that still carries the streams (non-zero remote exit); or it rejects with a
plain error that has only a message (connection failure, timeout, spawn
failure).  `fallbackText` is the string rendering used by the source's
template interpolation when the message is empty. -/
inductive ExecOutcome where
  | resolved (stdout stderr : String)
  | rejectedStreams (stdout stderr : String)
  | rejectedPlain (message fallbackText : String)
  deriving Repr, DecidableEq

/-- Errors propagated by `ssh`: the rejection value of the underlying execa
promise. -/
inductive ExecError where
  | withStreams (stdout stderr : String)
  | plain (message fallbackText : String)
  deriving Repr, DecidableEq

/-- Model of `ssh` from `src/utils.ts`: runs the remote command and propagates
transport failure to the caller (the promise rejection becomes
`Except.error`). -/
def ssh (outcome : ExecOutcome) : Except ExecError SSHResult :=
  match outcome with
  | .resolved out err => .ok ⟨out, err⟩
  | .rejectedStreams out err => .error (.withStreams out err)
  | .rejectedPlain msg fb => .error (.plain msg fb)

/-- Default success predicate of `testSSH`: `(r) => !r.stderr`, i.e. the
standard-error text is the empty (falsy) string. -/
def defaultTest (r : SSHResult) : Bool :=
  r.stderr == ""

/-- Model of `testSSH` from `src/utils.ts`.  The source throws the awaited `ssh`
result so every path lands in the `catch` block: a caught value that has a
`stdout` field keeps its streams, any other caught error becomes an empty
stdout plus the error message (or its string rendering when the message is
empty) as stderr; `success` is the predicate applied to that result.
Totality of this function embeds the guarantee that `testSSH` never raises
to its caller. -/
def testSSH (test : SSHResult → Bool) (outcome : ExecOutcome) : TestResult :=
  let caught : ExecError :=
    match ssh outcome with
    | .ok r => .withStreams r.stdout r.stderr
    | .error e => e
  match caught with
  | .withStreams out err => ⟨out, err, test ⟨out, err⟩⟩
  | .plain msg fb =>
      let r : SSHResult := ⟨"", if msg == "" then fb else msg⟩
      ⟨r.stdout, r.stderr, test r⟩

/-- Record `RemoteConfig` from `src/deploy/types.ts`. -/
structure RemoteConfig where
  project : String
  host : String
  baseDir : String
  deriving Repr, DecidableEq

/-- Record `ServiceConfig` from `src/deploy/types.ts` (`exec` is flattened into the
command and the optional argument list; `sync` is carried but unused by the
core). -/
structure ServiceConfig where
  name : String
  label : String
  execCommand : String
  execArgs : Option (List String)
  sync : List (String × String)
  requires : Option (List String)
  env : List (String × String)
  deriving Repr, DecidableEq

/-- Getter `Service#serviceName`: the project-namespaced unit name. -/
def serviceName (remote : RemoteConfig) (service : ServiceConfig) : String :=
  remote.project ++ "-" ++ service.name

/-- Getter `Service#serviceDir`. -/
def serviceDir (remote : RemoteConfig) (service : ServiceConfig) : String :=
  remote.baseDir ++ "/" ++ service.name

/-- Getter `ServiceReleases#releasesDir`. -/
def releasesDir (remote : RemoteConfig) (service : ServiceConfig) : String :=
  serviceDir remote service ++ "/releases"

/-- Command lines of the remote invocation issued by `Service.restart`. -/
def restartCommands (remote : RemoteConfig) (service : ServiceConfig) : List String :=
  ["set -e", "sudo systemctl restart " ++ serviceName remote service]

/-- Model of `Service.restart`: a `testSSH` call with the default predicate whose
structured result is returned, never raised. -/
def Service.restart (remote : RemoteConfig) (service : ServiceConfig)
    (outcome : ExecOutcome) : TestResult :=
  testSSH defaultTest outcome

/-- Command lines of the symlink-update invocation issued by
`ServiceReleases.switch`. -/
def switchCommands (remote : RemoteConfig) (service : ServiceConfig)
    (release : String) : List String :=
  ["set -e",
    "ln -sfn \"" ++ releasesDir remote service ++ "/" ++ release ++ "\" \""
      ++ serviceDir remote service ++ "/current\""]

/-- Model of `ServiceReleases.switch`: awaits `ssh` on the symlink script (so a
transport failure raises and aborts the method), then awaits
`Service.restart` — a second, separate remote invocation — and discards its
structured result.  The second component is the trace of remote invocations
actually issued, in order, each as its list of command lines. -/
def ServiceReleases.switch (remote : RemoteConfig) (service : ServiceConfig)
    (release : String) (linkOutcome restartOutcome : ExecOutcome) :
    Except ExecError Unit × List (List String) :=
  match ssh linkOutcome with
  | .error e => (.error e, [switchCommands remote service release])
  | .ok _ =>
      let _restartResult := Service.restart remote service restartOutcome
      (.ok (), [switchCommands remote service release,
        restartCommands remote service])

/-- One entry of the remote releases directory, as the prune/list shell
scripts observe it: its name, whether `[ -d "$dir" ]` holds, its
`readlink -f` canonical path, and its `stat -c %Y` modification time in
epoch seconds. -/
structure RelEntry where
  name : String
  isDir : Bool
  realpath : String
  mtime : Int
  deriving Repr, DecidableEq

/-- Remote loop of `ServiceReleases.prune`: for every directory entry whose
canonical path differs from the canonical path of `../current`, compute
`AGE=$(( (NOW - MTIME) / 3600 ))` (shell arithmetic truncates toward zero,
hence `Int.tdiv`) and `rm -rf` it when `AGE -gt hours`.  The result is the
list of surviving entries. -/
def ServiceReleases.prune (currentReal : String) (now hours : Int) :
    List RelEntry → List RelEntry
  | [] => []
  | d :: rest =>
    if d.isDir then
      if d.realpath != currentReal then
        if hours < Int.tdiv (now - d.mtime) 3600 then
          ServiceReleases.prune currentReal now hours rest
        else
          d :: ServiceReleases.prune currentReal now hours rest
      else
        d :: ServiceReleases.prune currentReal now hours rest
    else
      d :: ServiceReleases.prune currentReal now hours rest

/-- Remote loop of `ServiceReleases.list`: one `<name>|current` or
`<name>|old` line per directory entry, depending on whether its canonical
path equals the canonical path of `../current`; modelled as the emitted
(name, isCurrent) pairs.  A missing releases directory makes the remote
script `exit 0` with no output, i.e. an empty entry list here. -/
def listScan (currentReal : String) : List RelEntry → List (String × Bool)
  | [] => []
  | d :: rest =>
    if d.isDir then
      (d.name, d.realpath == currentReal) :: listScan currentReal rest
    else
      listScan currentReal rest

/-- One parsed line of `ServiceReleases.list` output. -/
structure ReleaseEntry where
  timestamp : String
  current : Bool
  deriving Repr, DecidableEq

/-- Insertion step of the sort modelling `Array.prototype.sort`. -/
def sortInsert {α : Type} (le : α → α → Bool) (a : α) : List α → List α
  | [] => [a]
  | b :: bs => if le a b then a :: b :: bs else b :: sortInsert le a bs

/-- Comparison sort modelling the source's `.sort((a, b) =>
a.timestamp.localeCompare(b.timestamp))`: ascending by the given order. -/
def sortBy {α : Type} (le : α → α → Bool) : List α → List α
  | [] => []
  | a :: as => sortInsert le a (sortBy le as)

/-- Ascending order on parsed entries by timestamp string. -/
def byTimestamp (a b : ReleaseEntry) : Bool :=
  decide (a.timestamp ≤ b.timestamp)

/-- Model of `ServiceReleases.list` (identity `map`): parse the emitted lines into
entries and sort ascending by timestamp. -/
def ServiceReleases.list (currentReal : String) (entries : List RelEntry) :
    List ReleaseEntry :=
  sortBy byTimestamp ((listScan currentReal entries).map fun p => ⟨p.1, p.2⟩)

/-- Character-list test that `pat` matches at the head of the text. -/
def leadMatch : List Char → List Char → Bool
  | [], _ => true
  | _ :: _, [] => false
  | a :: as, b :: bs => a == b && leadMatch as bs

/-- Character-list substring search. -/
def hasSub (pat : List Char) : List Char → Bool
  | [] => leadMatch pat []
  | b :: bs => leadMatch pat (b :: bs) || hasSub pat bs

/-- JavaScript `String.prototype.includes`. -/
def strIncludes (s pat : String) : Bool :=
  hasSub pat.data s.data

/-- Guard string echoed at the end of the install script. -/
def guardString (remote : RemoteConfig) (service : ServiceConfig) : String :=
  serviceName remote service ++ " Installed successfully"

/-- Success predicate passed by `Service.install` to `testSSH`:
`({ stdout, stderr }) => stdout.includes(guard) && !stderr`. -/
def installTest (guard : String) (r : SSHResult) : Bool :=
  strIncludes r.stdout guard && r.stderr == ""

/-- Model of `Service.install` viewed through its `testSSH` call: the structured
result of the remote run, classified by `installTest` with this service's
guard string. -/
def Service.install (remote : RemoteConfig) (service : ServiceConfig)
    (outcome : ExecOutcome) : TestResult :=
  testSSH (installTest (guardString remote service)) outcome

/-- JavaScript `dep.replace('.', rep)` for a single-character search string:
replace only the first occurrence, leave the text unchanged when the
character does not occur. -/
def replaceFirstChar (c : Char) (rep : List Char) : List Char → List Char
  | [] => []
  | a :: as => if a = c then rep ++ as else a :: replaceFirstChar c rep as

/-- Dependency rewrite applied by `Service.install`:
`dep.replace('.', project + '-')`. -/
def rewriteDep (project dep : String) : String :=
  String.mk (replaceFirstChar '.' (project ++ "-").data dep.data)

/-- The `requires` list `Service.install` hands to `buildUnit`:
`this.service.requires?.map((dep) => dep.replace('.', project + '-'))`. -/
def installRequires (remote : RemoteConfig) (service : ServiceConfig) :
    Option (List String) :=
  service.requires.map (List.map (rewriteDep remote.project))

/-- Template fragment `${service.requires}.service` (JavaScript array
interpolation joins with commas); empty when `requires` is undefined. -/
def requiresClause (requires : Option (List String)) : String :=
  match requires with
  | some deps => String.intercalate "," deps ++ ".service"
  | none => ""

/-- Template fragment `service.exec.args?.join(' ') ?? ''`. -/
def argsText (args : Option (List String)) : String :=
  match args with
  | some a => String.intercalate " " a
  | none => ""

/-- Template fragment for the environment lines. -/
def envLines (env : List (String × String)) : String :=
  String.intercalate "\n" (env.map fun kv => "Environment=" ++ kv.1 ++ "=" ++ kv.2)

/-- JavaScript `String.prototype.trim` on character lists: drop whitespace
from both ends. -/
def trimChars (l : List Char) : List Char :=
  ((l.dropWhile Char.isWhitespace).reverse.dropWhile Char.isWhitespace).reverse

/-- JavaScript `String.prototype.trim`. -/
def jsTrim (s : String) : String :=
  String.mk (trimChars s.data)

/-- Model of `buildUnit` from `src/deploy/service.ts`: the generated systemd unit
text (`path.posix.join` is plain slash-joining for the normalized paths the
config provides). -/
def buildUnit (baseDir : String) (service : ServiceConfig) : String :=
  jsTrim ("\n[Unit]\nDescription=" ++ service.label
    ++ "\nAfter=network.target " ++ requiresClause service.requires
    ++ "\n"
    ++ (match service.requires with
        | some _ => "Requires=" ++ requiresClause service.requires
        | none => "")
    ++ "\n\nStartLimitIntervalSec=30\nStartLimitBurst=5\n\n[Service]\nType=simple\nUser=debian\nWorkingDirectory="
    ++ baseDir ++ "/" ++ service.name ++ "/current"
    ++ "\nExecStart=" ++ service.execCommand ++ " " ++ argsText service.execArgs
    ++ "\nRestart=always\nRestartSec=2\n" ++ envLines service.env
    ++ "\n\n[Install]\nWantedBy=multi-user.target\n")

/-- The unit text `Service.install` actually generates: `buildUnit` applied
to the service with its `requires` list rewritten. -/
def Service.installUnit (remote : RemoteConfig) (service : ServiceConfig) : String :=
  buildUnit remote.baseDir { service with requires := installRequires remote service }

/-- Model of `Deploy.service` from `src/deploy/deploy.ts`: `serviceName ? find :
services[0]`, then `assert(service)`.  A `none` result models the assertion
failure; the empty string is falsy in the source's conditional. -/
def Deploy.service (services : List ServiceConfig) :
    Option String → Option ServiceConfig
  | some n =>
      if n == "" then services.head?
      else services.find? fun item => n == item.name
  | none => services.head?

/-- Concrete remote target used by witnesses and counterexamples. -/
def cRemote : RemoteConfig :=
  ⟨"p", "host", "/srv"⟩

/-- Concrete service without dependencies used by witnesses and
counterexamples. -/
def cService : ServiceConfig :=
  ⟨"web", "Web", "node", none, [], none, []⟩

/-- Concrete service whose single dependency name has no dot. -/
def cDepService : ServiceConfig :=
  ⟨"web", "Web", "node", none, [], some ["bar"], []⟩

/-- Concrete one-service registry used by witnesses and counterexamples. -/
def cRegistry : List ServiceConfig :=
  [⟨"a", "A", "cmd", none, [], none, []⟩]

/-- The prune loop keeps exactly the entries that are not directories, or
share the current canonical path, or are not strictly older than the
threshold in truncated whole hours. -/
def pruneKeeps (currentReal : String) (now hours : Int) (d : RelEntry) : Bool :=
  !(d.isDir && d.realpath != currentReal
    && decide (hours < Int.tdiv (now - d.mtime) 3600))

theorem prune_eq_filter (currentReal : String) (now hours : Int)
    (entries : List RelEntry) :
    ServiceReleases.prune currentReal now hours entries
      = entries.filter (pruneKeeps currentReal now hours) := by
  induction entries with
  | nil => rfl
  | cons d rest ih =>
    rw [ServiceReleases.prune, List.filter_cons, ih]
    by_cases hdir : d.isDir = true
    · by_cases hreal : d.realpath = currentReal
      · simp [pruneKeeps, hdir, hreal]
      · have hb : (d.realpath != currentReal) = true := by
          simp [bne_iff_ne, hreal]
        by_cases hage : hours < Int.tdiv (now - d.mtime) 3600
        · simp [pruneKeeps, hdir, hb, hage]
        · simp [pruneKeeps, hdir, hb, hage]
    · simp [pruneKeeps, hdir]

/-- C1: for every invocation of `ServiceReleases.prune(h)`, the release
directory whose canonical path is the one the `current` symlink resolves to
is never deleted, for any threshold and any release ages (in particular when
every release age exceeds the threshold). -/
theorem C1_prune_never_deletes_current (currentReal : String)
    (now hours : Int) (entries : List RelEntry) (d : RelEntry)
    (hmem : d ∈ entries) (hcur : d.realpath = currentReal) :
    d ∈ ServiceReleases.prune currentReal now hours entries := by
  rw [prune_eq_filter]
  exact List.mem_filter.2 ⟨hmem, by simp [pruneKeeps, hcur]⟩

/-- Witness for C1: two releases, both far older than the 2-hour threshold;
the one the `current` symlink resolves to survives the prune. -/
theorem C1_witness :
    (⟨"r1", true, "/srv/app/releases/r1", 0⟩ : RelEntry)
      ∈ ServiceReleases.prune "/srv/app/releases/r1" 1000000 2
          [⟨"r1", true, "/srv/app/releases/r1", 0⟩,
           ⟨"r2", true, "/srv/app/releases/r2", 0⟩] :=
  C1_prune_never_deletes_current "/srv/app/releases/r1" 1000000 2
    [⟨"r1", true, "/srv/app/releases/r1", 0⟩,
     ⟨"r2", true, "/srv/app/releases/r2", 0⟩]
    ⟨"r1", true, "/srv/app/releases/r1", 0⟩ (by decide) rfl

/-- C6: for a release directory whose modification time is not in the
future, `prune(h)` deletes it iff its canonical path differs from the one
`current` resolves to and its age in whole hours (floor of
(now - mtime) / 3600) strictly exceeds `h`; in particular a non-current
release whose whole-hour age equals `h` is retained. -/
theorem C6_prune_deletes_iff (currentReal : String) (now hours : Int)
    (entries : List RelEntry) (d : RelEntry) (hmem : d ∈ entries)
    (hdir : d.isDir = true) (hage : 0 ≤ now - d.mtime) :
    d ∉ ServiceReleases.prune currentReal now hours entries
      ↔ (d.realpath ≠ currentReal ∧ hours < Int.fdiv (now - d.mtime) 3600) := by
  have hdiv : Int.fdiv (now - d.mtime) 3600 = Int.tdiv (now - d.mtime) 3600 := by
    rw [Int.fdiv_eq_ediv _ (by norm_num), Int.tdiv_eq_ediv hage (by norm_num)]
  rw [prune_eq_filter, List.mem_filter, hdiv]
  simp [pruneKeeps, hmem, hdir, bne_iff_ne]

/-- Witness for C6: a single non-current release aged just over two hours is
deleted by `prune 1`. -/
theorem C6_witness :
    (⟨"r2", true, "/r2", 0⟩ : RelEntry)
      ∉ ServiceReleases.prune "/c" 7201 1 [⟨"r2", true, "/r2", 0⟩] :=
  (C6_prune_deletes_iff "/c" 7201 1 [⟨"r2", true, "/r2", 0⟩]
      ⟨"r2", true, "/r2", 0⟩ (by decide) rfl (by decide)).mpr (by decide)

theorem sortInsert_perm {α : Type} (le : α → α → Bool) (a : α) (l : List α) :
    (sortInsert le a l).Perm (a :: l) := by
  induction l with
  | nil => exact List.Perm.refl _
  | cons b bs ih =>
    rw [sortInsert]
    by_cases h : le a b = true
    · simp [h]
    · simp only [h]
      exact ((List.Perm.cons b ih).trans (List.Perm.swap a b bs))

theorem sortBy_perm {α : Type} (le : α → α → Bool) (l : List α) :
    (sortBy le l).Perm l := by
  induction l with
  | nil => exact List.Perm.refl _
  | cons a as ih =>
    exact (sortInsert_perm le a (sortBy le as)).trans (List.Perm.cons a ih)

/-- Number of lines marked current by the remote list loop: one per
directory entry whose canonical path equals the resolved current path. -/
theorem listScan_countP (currentReal : String) (entries : List RelEntry) :
    (listScan currentReal entries).countP (fun p => p.2)
      = entries.countP (fun d => d.isDir && d.realpath == currentReal) := by
  induction entries with
  | nil => rfl
  | cons d rest ih =>
    rw [listScan]
    by_cases hdir : d.isDir = true
    · by_cases hreal : d.realpath = currentReal
      · simp [hdir, hreal, List.countP_cons, ih]
      · have hb : (d.realpath == currentReal) = false := by
          simp [hreal]
        simp [hdir, hb, List.countP_cons, ih]
    · simp [hdir, List.countP_cons, ih]

/-- Distinct canonical paths give at most one entry matching the current
path. -/
theorem countP_current_le_one (currentReal : String) (entries : List RelEntry)
    (hinj : entries.Pairwise (fun a b => a.realpath ≠ b.realpath)) :
    entries.countP (fun d => d.isDir && d.realpath == currentReal) ≤ 1 := by
  induction entries with
  | nil => simp
  | cons d rest ih =>
    rw [List.pairwise_cons] at hinj
    rw [List.countP_cons]
    by_cases hd : (d.isDir && d.realpath == currentReal) = true
    · have hreal : d.realpath = currentReal := by
        have hd2 := hd
        simp only [Bool.and_eq_true, beq_iff_eq] at hd2
        exact hd2.2
      have hzero : rest.countP (fun e => e.isDir && e.realpath == currentReal) = 0 := by
        rw [List.countP_eq_zero]
        intro e he
        have hne : e.realpath ≠ currentReal := fun h =>
          (hinj.1 e he) (hreal.trans h.symm)
        simp [hne]
      simp [hd, hzero]
    · have := ih hinj.2
      simp [hd]
      omega

/-- C3: under the filesystem invariant that distinct entries have distinct
canonical paths, `list()` returns exactly one entry with `current = true`
iff the `current` symlink resolves to the canonical path of one of the
directories present under the releases root; when it does not (symlink
absent or dangling, so its resolution is no present directory), zero entries
have `current = true`. -/
theorem C3_list_current_unique (currentReal : String) (entries : List RelEntry)
    (hinj : entries.Pairwise (fun a b => a.realpath ≠ b.realpath)) :
    (((ServiceReleases.list currentReal entries).countP (fun e => e.current) = 1)
        ↔ ∃ d ∈ entries, d.isDir = true ∧ d.realpath = currentReal)
    ∧ ((¬ ∃ d ∈ entries, d.isDir = true ∧ d.realpath = currentReal)
        → (ServiceReleases.list currentReal entries).countP (fun e => e.current) = 0) := by
  have hcomp : ((fun (e : ReleaseEntry) => e.current)
      ∘ fun (p : String × Bool) => (⟨p.1, p.2⟩ : ReleaseEntry)) = fun p => p.2 := rfl
  have hcount : (ServiceReleases.list currentReal entries).countP (fun e => e.current)
      = entries.countP (fun d => d.isDir && d.realpath == currentReal) := by
    rw [ServiceReleases.list,
      (sortBy_perm byTimestamp _).countP_eq (fun e => e.current),
      List.countP_map, hcomp, listScan_countP]
  have hle := countP_current_le_one currentReal entries hinj
  have hiff : (∃ d ∈ entries, (d.isDir && d.realpath == currentReal) = true)
      ↔ ∃ d ∈ entries, d.isDir = true ∧ d.realpath = currentReal := by
    simp [Bool.and_eq_true]
  constructor
  · rw [hcount]
    constructor
    · intro h1
      exact hiff.1 (List.countP_pos.1 (by omega))
    · intro hex
      have hpos := List.countP_pos.2 (hiff.2 hex)
      omega
  · intro hno
    rw [hcount, List.countP_eq_zero]
    intro d hd hcontra
    exact hno (hiff.1 ⟨d, hd, hcontra⟩)

/-- Witness for C3: two release directories with distinct canonical paths
and `current` resolving to the first; exactly one listed entry is marked
current. -/
theorem C3_witness :
    (ServiceReleases.list "/ra"
        [⟨"a", true, "/ra", 0⟩, ⟨"b", true, "/rb", 0⟩]).countP
      (fun e => e.current) = 1 :=
  (C3_list_current_unique "/ra" [⟨"a", true, "/ra", 0⟩, ⟨"b", true, "/rb", 0⟩]
    (by decide)).1.mpr ⟨⟨"a", true, "/ra", 0⟩, by decide, rfl, rfl⟩

/-- C4: `Service.install` reports success iff the guard string appears in
the result's stdout and the result's stderr is empty; in particular a run
whose stdout contains the guard but whose stderr is non-empty reports
`success = false`. -/
theorem C4_install_success_iff (remote : RemoteConfig) (service : ServiceConfig)
    (outcome : ExecOutcome) :
    (Service.install remote service outcome).success = true
      ↔ (strIncludes (Service.install remote service outcome).stdout
            (guardString remote service) = true
          ∧ (Service.install remote service outcome).stderr = "") := by
  cases outcome <;>
    simp [Service.install, testSSH, ssh, installTest, Bool.and_eq_true]

/-- C5: `testSSH` settles every transport outcome into a structured result:
`success` is always the predicate applied to the captured streams; an
outcome with no structured output yields an empty stdout and the transport
error message (or its rendering when the message is empty) as stderr; and
the default predicate holds iff stderr is empty. -/
theorem C5_testSSH_structured (test : SSHResult → Bool) :
    (∀ outcome, (testSSH test outcome).success
        = test ⟨(testSSH test outcome).stdout, (testSSH test outcome).stderr⟩)
    ∧ (∀ msg fb, (testSSH test (.rejectedPlain msg fb)).stdout = ""
        ∧ (testSSH test (.rejectedPlain msg fb)).stderr
            = (if msg == "" then fb else msg))
    ∧ (∀ r, defaultTest r = (r.stderr == "")) := by
  refine ⟨fun outcome => ?_, fun msg fb => ⟨rfl, rfl⟩, fun r => rfl⟩
  cases outcome <;> rfl

/-- Counterexample to C2 as stated: within one `switch` invocation the
symlink update and the restart are issued as two separate remote
invocations — no single invocation of the issued trace holds both the
symlink line and the restart line. -/
theorem C2_cex :
    (ServiceReleases.switch cRemote cService "r1" (.resolved "" "")
        (.resolved "" "")).2
      = [["set -e", "ln -sfn \"/srv/web/releases/r1\" \"/srv/web/current\""],
         ["set -e", "sudo systemctl restart p-web"]]
    ∧ ¬ ∃ inv ∈ (ServiceReleases.switch cRemote cService "r1" (.resolved "" "")
        (.resolved "" "")).2,
        ("ln -sfn \"/srv/web/releases/r1\" \"/srv/web/current\"" ∈ inv
          ∧ "sudo systemctl restart p-web" ∈ inv) := by
  decide

/-- C2 (amended): within one `switch(releaseId)` invocation the symlink
update is issued as its own `set -e` remote invocation, which `switch`
awaits; only when it succeeds does `switch` issue the restart as a second,
separate remote invocation — so the symlink update completes (or the whole
method aborts) before the restart command is issued. -/
theorem C2_switch_ordering (remote : RemoteConfig) (service : ServiceConfig)
    (release : String) (linkOutcome restartOutcome : ExecOutcome) :
    (∀ r, ssh linkOutcome = .ok r →
      ServiceReleases.switch remote service release linkOutcome restartOutcome
        = (.ok (), [switchCommands remote service release,
            restartCommands remote service]))
    ∧ (∀ e, ssh linkOutcome = .error e →
      ServiceReleases.switch remote service release linkOutcome restartOutcome
        = (.error e, [switchCommands remote service release])) := by
  constructor
  · intro r hr
    simp [ServiceReleases.switch, hr]
  · intro e he
    simp [ServiceReleases.switch, he]

/-- Witness for the amended C2: a successful symlink step issues exactly
the two invocations in order. -/
theorem C2_witness :
    ServiceReleases.switch cRemote cService "r1" (.resolved "" "")
        (.resolved "" "")
      = (.ok (), [switchCommands cRemote cService "r1",
          restartCommands cRemote cService]) :=
  (C2_switch_ordering cRemote cService "r1" (.resolved "" "")
    (.resolved "" "")).1 ⟨"", ""⟩ rfl

/-- C7: when the symlink-update invocation of `switch` fails, the failure
propagates as the raised error and the issued trace holds only the symlink
invocation — the restart command is never attempted. -/
theorem C7_switch_link_failure_aborts (remote : RemoteConfig)
    (service : ServiceConfig) (release : String)
    (linkOutcome restartOutcome : ExecOutcome) (e : ExecError)
    (h : ssh linkOutcome = .error e) :
    (ServiceReleases.switch remote service release linkOutcome restartOutcome).1
        = .error e
    ∧ (ServiceReleases.switch remote service release linkOutcome restartOutcome).2
        = [switchCommands remote service release] := by
  simp [ServiceReleases.switch, h]

/-- Witness for C7: a connection failure on the symlink step is propagated
and the trace stops at the symlink invocation. -/
theorem C7_witness :
    (ServiceReleases.switch cRemote cService "r1"
        (.rejectedPlain "boom" "Error: boom") (.resolved "" "")).1
      = .error (.plain "boom" "Error: boom")
    ∧ (ServiceReleases.switch cRemote cService "r1"
        (.rejectedPlain "boom" "Error: boom") (.resolved "" "")).2
      = [switchCommands cRemote cService "r1"] :=
  C7_switch_link_failure_aborts cRemote cService "r1"
    (.rejectedPlain "boom" "Error: boom") (.resolved "" "")
    (.plain "boom" "Error: boom") rfl

/-- C10: `switch` resolves successfully whenever the symlink step succeeds,
whatever the outcome of the restart: the restart invocation is issued but
its structured result is discarded, never surfaced to the caller. -/
theorem C10_switch_ignores_restart_failure (remote : RemoteConfig)
    (service : ServiceConfig) (release : String) (out err : String)
    (restartOutcome : ExecOutcome) :
    ServiceReleases.switch remote service release (.resolved out err)
        restartOutcome
      = (.ok (), [switchCommands remote service release,
          restartCommands remote service]) :=
  rfl

theorem replaceFirstChar_not_mem (c : Char) (rep : List Char) (l : List Char)
    (h : c ∉ l) : replaceFirstChar c rep l = l := by
  induction l with
  | nil => rfl
  | cons a as ih =>
    have hne : ¬(a = c) := by
      intro hac
      apply h
      rw [← hac]
      exact List.mem_cons_self a as
    have hrest : c ∉ as := fun hm => h (List.mem_cons_of_mem a hm)
    rw [replaceFirstChar]
    simp [hne, ih hrest]

theorem replaceFirstChar_cons_self (c : Char) (rep : List Char) (l : List Char) :
    replaceFirstChar c rep (c :: l) = rep ++ l := by
  rw [replaceFirstChar]
  simp

set_option maxRecDepth 100000 in
/-- Counterexample to C8 as stated: with project `p`, the dependency name
`bar` (no dot) is left unchanged by `install`'s rewrite, so the generated
unit text carries `Requires=bar.service` and not the project-namespaced
`Requires=p-bar.service`. -/
theorem C8_cex :
    installRequires cRemote cDepService = some ["bar"]
    ∧ rewriteDep "p" "bar" ≠ "p-bar"
    ∧ strIncludes (Service.installUnit cRemote cDepService)
        "Requires=bar.service" = true
    ∧ strIncludes (Service.installUnit cRemote cDepService)
        "Requires=p-bar.service" = false := by
  decide

/-- C8 (amended): `install` rewrites each dependency name by replacing its
first `.` with `<project>-`: a dot-prefixed name `.x` becomes the
project-namespaced unit-name form `<project>-x` (the same form used for the
unit itself), while a dependency name without any dot is left unchanged. -/
theorem C8_rewrite_project_namespacing (project x d : String)
    (hd : '.' ∉ d.data) :
    rewriteDep project ("." ++ x) = project ++ "-" ++ x
    ∧ rewriteDep project d = d := by
  constructor
  · apply String.ext
    have h1 : ("." ++ x).data = '.' :: x.data := by
      rw [String.data_append]
      rfl
    rw [rewriteDep, h1, replaceFirstChar_cons_self]
    simp [String.data_append]
  · apply String.ext
    rw [rewriteDep, replaceFirstChar_not_mem _ _ _ hd]

/-- Witness for the amended C8: under project `p`, the dot-prefixed
dependency `.web` becomes `p-web` and the dot-free dependency `bar` stays
`bar`. -/
theorem C8_witness :
    rewriteDep "p" ("." ++ "web") = "p" ++ "-" ++ "web"
    ∧ rewriteDep "p" "bar" = "bar" :=
  C8_rewrite_project_namespacing "p" "web" "bar" (by decide)

/-- Counterexample to C9 as stated: giving the empty string as the service
name, which no configured service bears, does not trigger the assertion
failure — the empty string is falsy, so the lookup falls back to the first
configured service. -/
theorem C9_cex :
    Deploy.service cRegistry (some "")
        = some ⟨"a", "A", "cmd", none, [], none, []⟩
    ∧ (∀ s ∈ cRegistry, s.name ≠ "") := by
  decide

/-- C9 (amended): `Deploy.service` returns the first configured descriptor
when the name is omitted (or empty, since the empty string is falsy in the
source's conditional); for a non-empty name it returns the first descriptor
whose name matches exactly, and the assertion failure (modelled as `none`)
fires iff no configured service has that exact name. -/
theorem C9_service_lookup (services : List ServiceConfig) (n : String)
    (hn : n ≠ "") :
    Deploy.service services none = services.head?
    ∧ (Deploy.service services (some n) = none
        ↔ ∀ s ∈ services, s.name ≠ n)
    ∧ (∀ s, Deploy.service services (some n) = some s
        → s.name = n ∧ s ∈ services) := by
  have hbeq : (n == "") = false := by simp [hn]
  refine ⟨rfl, ?_, ?_⟩
  · rw [Deploy.service]
    simp only [hbeq, Bool.false_eq_true, if_false, List.find?_eq_none, beq_iff_eq]
    constructor <;> intro h s hs <;> exact fun heq => (h s hs) heq.symm
  · intro s hfind
    rw [Deploy.service] at hfind
    simp only [hbeq, Bool.false_eq_true, if_false] at hfind
    have hname := List.find?_some hfind
    simp only [beq_iff_eq] at hname
    exact ⟨hname.symm, List.mem_of_find?_eq_some hfind⟩

/-- Witness for the amended C9: a one-service registry, looked up with the
absent name `zzz` and with the name omitted. -/
theorem C9_witness :
    Deploy.service cRegistry none = cRegistry.head?
    ∧ (Deploy.service cRegistry (some "zzz") = none
        ↔ ∀ s ∈ cRegistry, s.name ≠ "zzz")
    ∧ (∀ s, Deploy.service cRegistry (some "zzz") = some s
        → s.name = "zzz" ∧ s ∈ cRegistry) :=
  C9_service_lookup cRegistry "zzz" (by decide)
